import Mathlib

/-!
Verification of the provider-agnostic comment delivery subsystem of the
`gitex` repository: the generic comment model (`api/api.go`), the retry
classifier (`internal/vcs_provider/retry.go`), the per-platform position
translators and submission loops (`internal/vcs_provider/gitlab_service.go`,
`internal/vcs_provider/github_service.go` and their newer revisions kept in
the snapshot), the batch-retry helper `WithRetry` (`util.go`), and the
pipeline driver `App.Run` (`app.go`).

Go pointer fields (`*string`, `*int64`, `*float64`, pointers to structs)
are modeled as `Option` values; `nil` is `none`.  Go `int64`/`int` are
modeled as `Int` (the repository targets 64-bit builds, where the
`int(*p)` conversions appearing in the translators are the identity).
-/

namespace Gitex

/-- `api.LinePositionOptions` from `api/api.go`: one endpoint of a
multi-line comment range. -/
structure LinePositionOptions where
  lineCode : Option String
  type : Option String
  oldLine : Option Int
  newLine : Option Int
deriving Repr, DecidableEq

/-- `api.LineRangeOptions` from `api/api.go`.  The Go field `End` is a
reserved word in Lean and is rendered `endPoint`. -/
structure LineRangeOptions where
  start : Option LinePositionOptions
  endPoint : Option LinePositionOptions
deriving Repr, DecidableEq

/-- `api.InlineCommentPosition` from `api/api.go`.  The `commentType`
field does not appear in the snapshot's `api/api.go`, but the newer
revision of the GitHub translator kept in the snapshot reads
`pos.CommentType` and compares it to the string literal `"MULTI_LINE"`,
so the field (a plain Go `string`) is included here. -/
structure InlineCommentPosition where
  baseSha : Option String
  headSha : Option String
  startSha : Option String
  newPath : Option String
  oldPath : Option String
  positionType : Option String
  newLine : Option Int
  oldLine : Option Int
  lineRange : Option LineRangeOptions
  width : Option Int
  height : Option Int
  x : Option Float
  y : Option Float
  commentType : String
deriving Repr

/-- `api.InlineComment` from `api/api.go`.  `CreatedAt` (`*time.Time`) is
modeled as an abstract optional timestamp. -/
structure InlineComment where
  body : Option String
  commitID : Option String
  createdAt : Option Int
  position : Option InlineCommentPosition
deriving Repr

/-- `api.PullRequestInfo` from `api/api.go`.  All fields are plain Go
values (zero value `""` resp. `0` when a constructor omits them). -/
structure PullRequestInfo where
  projectName : String
  baseSha : String
  startSha : String
  headSha : String
  projectHttpUrl : String
  sourceBranch : String
  targetBranch : String
  projectId : Int
  projectPath : String
  pullRequestId : Int
deriving Repr, DecidableEq

/-! ## Retry classifier (`internal/vcs_provider/retry.go`) -/

/-- The part of `*http.Response` read by `RetryPolicy`: the status code
and the value of `resp.Header.Get("X-RateLimit-Remaining")` (the empty
string when the header is absent, as in Go). -/
structure HttpResponse where
  statusCode : Nat
  rateLimitRemaining : String
deriving Repr, DecidableEq

/-- `RetryPolicy` from `internal/vcs_provider/retry.go`.  `ctxErr` models
`ctx.Err()` (`none` when the context is live), `err` models the transport
error argument, `resp` the received response (only read when `err` is
`none`, exactly as in the source, which dereferences `resp` only after
the `err != nil` branch returned). -/
def RetryPolicy (ctxErr : Option String) (err : Option String) (resp : HttpResponse) :
    Bool × Option String :=
  match ctxErr with
  | some e => (false, some e)
  | none =>
    if err.isSome then (true, none)
    else if resp.statusCode = 429 then (true, none)
    else if resp.statusCode = 403 ∧ resp.rateLimitRemaining = "0" then (true, none)
    else if 500 ≤ resp.statusCode ∧ resp.statusCode ≠ 501 then (true, none)
    else if 400 ≤ resp.statusCode then (false, none)
    else (false, none)

/-- C1: the retry classifier follows the spec's ordered decision table
with first match winning: a dead context returns `(false, the context's
error)` regardless of response; otherwise a transport error retries;
429 retries; 403 with `X-RateLimit-Remaining` exactly `"0"` retries;
403 with remaining quota and every other 4xx (including 422) does not
retry; every 5xx except 501 retries; 501, 2xx and everything else does
not retry; and in every non-cancelled case the returned error is `nil`. -/
theorem retryPolicy_decision_table (ctxErr err : Option String) (resp : HttpResponse) :
    (∀ e, ctxErr = some e → RetryPolicy ctxErr err resp = (false, some e)) ∧
    (ctxErr = none → err.isSome → RetryPolicy ctxErr err resp = (true, none)) ∧
    (ctxErr = none → err = none → resp.statusCode = 429 →
      RetryPolicy ctxErr err resp = (true, none)) ∧
    (ctxErr = none → err = none → resp.statusCode = 403 →
      resp.rateLimitRemaining = "0" → RetryPolicy ctxErr err resp = (true, none)) ∧
    (ctxErr = none → err = none → resp.statusCode = 403 →
      resp.rateLimitRemaining ≠ "0" → RetryPolicy ctxErr err resp = (false, none)) ∧
    (ctxErr = none → err = none → 400 ≤ resp.statusCode → resp.statusCode < 500 →
      resp.statusCode ≠ 429 → ¬(resp.statusCode = 403 ∧ resp.rateLimitRemaining = "0") →
      RetryPolicy ctxErr err resp = (false, none)) ∧
    (ctxErr = none → err = none → 500 ≤ resp.statusCode → resp.statusCode ≠ 501 →
      RetryPolicy ctxErr err resp = (true, none)) ∧
    (ctxErr = none → err = none → resp.statusCode = 501 →
      RetryPolicy ctxErr err resp = (false, none)) ∧
    (ctxErr = none → err = none → resp.statusCode < 400 →
      RetryPolicy ctxErr err resp = (false, none)) ∧
    (ctxErr = none → (RetryPolicy ctxErr err resp).2 = none) := by
  obtain ⟨code, rem⟩ := resp
  cases ctxErr with
  | some e =>
    refine ⟨fun e' he => ?_, ?_, ?_, ?_, ?_, ?_, ?_, ?_, ?_, ?_⟩ <;>
      simp_all [RetryPolicy]
  | none =>
    cases err with
    | some e =>
      refine ⟨?_, ?_, ?_, ?_, ?_, ?_, ?_, ?_, ?_, ?_⟩ <;> simp [RetryPolicy]
    | none =>
      refine ⟨?_, ?_, ?_, ?_, ?_, ?_, ?_, ?_, ?_, ?_⟩ <;>
        intros <;> simp only [RetryPolicy, Option.isSome_none] <;>
        split_ifs <;> simp_all <;> omega

/-- Witness for C1: the decision table evaluated at one concrete input
per row. -/
theorem retryPolicy_decision_table_witness :
    RetryPolicy (some "context canceled") none ⟨200, ""⟩ = (false, some "context canceled") ∧
    RetryPolicy none (some "connection reset") ⟨0, ""⟩ = (true, none) ∧
    RetryPolicy none none ⟨429, ""⟩ = (true, none) ∧
    RetryPolicy none none ⟨403, "0"⟩ = (true, none) ∧
    RetryPolicy none none ⟨403, "100"⟩ = (false, none) ∧
    RetryPolicy none none ⟨422, ""⟩ = (false, none) ∧
    RetryPolicy none none ⟨502, ""⟩ = (true, none) ∧
    RetryPolicy none none ⟨501, ""⟩ = (false, none) ∧
    RetryPolicy none none ⟨200, ""⟩ = (false, none) :=
  ⟨(retryPolicy_decision_table (some "context canceled") none ⟨200, ""⟩).1 _ rfl,
   (retryPolicy_decision_table none (some "connection reset") ⟨0, ""⟩).2.1 rfl rfl,
   (retryPolicy_decision_table none none ⟨429, ""⟩).2.2.1 rfl rfl rfl,
   (retryPolicy_decision_table none none ⟨403, "0"⟩).2.2.2.1 rfl rfl rfl rfl,
   (retryPolicy_decision_table none none ⟨403, "100"⟩).2.2.2.2.1 rfl rfl rfl (by decide),
   (retryPolicy_decision_table none none ⟨422, ""⟩).2.2.2.2.2.1 rfl rfl (by decide)
     (by decide) (by decide) (by decide),
   (retryPolicy_decision_table none none ⟨502, ""⟩).2.2.2.2.2.2.1 rfl rfl (by decide) (by decide),
   (retryPolicy_decision_table none none ⟨501, ""⟩).2.2.2.2.2.2.2.1 rfl rfl rfl,
   (retryPolicy_decision_table none none ⟨200, ""⟩).2.2.2.2.2.2.2.2.1 rfl rfl (by decide)⟩

/-! ## GitLab wire shapes and translator
(`internal/vcs_provider/gitlab_service.go`) -/

/-- `gitlab.LinePositionOptions` as populated by `convertInlineLinePosition`. -/
structure GLLinePositionOptions where
  lineCode : Option String
  type : Option String
  oldLine : Option Int
  newLine : Option Int
deriving Repr, DecidableEq

/-- `gitlab.LineRangeOptions` as populated by `convertInlineLineRange`. -/
structure GLLineRangeOptions where
  start : Option GLLinePositionOptions
  endPoint : Option GLLinePositionOptions
deriving Repr, DecidableEq

/-- `gitlab.PositionOptions` as populated by `convertInlineCommentPosition`. -/
structure GLPositionOptions where
  baseSHA : Option String
  headSHA : Option String
  startSHA : Option String
  newPath : Option String
  oldPath : Option String
  positionType : Option String
  newLine : Option Int
  oldLine : Option Int
  lineRange : Option GLLineRangeOptions
  width : Option Int
  height : Option Int
  x : Option Float
  y : Option Float
deriving Repr

/-- `gitlab.CreateMergeRequestDiscussionOptions` as populated by the GitLab
`convertApiComment`. -/
structure CreateMergeRequestDiscussionOptions where
  body : Option String
  createdAt : Option Int
  position : Option GLPositionOptions
deriving Repr

/-- `convertInlineLinePosition` from `gitlab_service.go`. -/
def convertInlineLinePosition : Option LinePositionOptions → Option GLLinePositionOptions
  | none => none
  | some p => some { lineCode := p.lineCode, type := p.type, oldLine := p.oldLine,
                     newLine := p.newLine }

/-- `convertInlineLineRange` from `gitlab_service.go`. -/
def convertInlineLineRange : Option LineRangeOptions → Option GLLineRangeOptions
  | none => none
  | some r => some { start := convertInlineLinePosition r.start,
                     endPoint := convertInlineLinePosition r.endPoint }

/-- `convertInlineCommentPosition` from `gitlab_service.go`. -/
def convertInlineCommentPosition : Option InlineCommentPosition → Option GLPositionOptions
  | none => none
  | some p => some
      { baseSHA := p.baseSha
        headSHA := p.headSha
        startSHA := p.startSha
        newPath := p.newPath
        oldPath := p.oldPath
        positionType := p.positionType
        newLine := p.newLine
        oldLine := p.oldLine
        lineRange := convertInlineLineRange p.lineRange
        width := p.width
        height := p.height
        x := p.x
        y := p.y }

/-- The GitLab `convertApiComment` from `gitlab_service.go`: it returns
`nil` only when the comment itself is `nil`; a comment whose `Position`
is `nil` yields a non-nil discussion option with a `nil` position. -/
def convertApiComment : Option InlineComment → Option CreateMergeRequestDiscussionOptions
  | none => none
  | some c => some { body := c.body, createdAt := c.createdAt,
                     position := convertInlineCommentPosition c.position }

/-- C8: translating a generic position to GitLab's wire shape is lossless —
`nil` maps to `nil`, and every field of a non-nil input (the three SHAs,
both paths, position type, new/old line, width, height, x, y, and the
nested line range with both endpoints' line code, type and old/new lines)
appears unchanged in the produced `PositionOptions`. -/
theorem convertInlineCommentPosition_lossless (p : InlineCommentPosition) :
    convertInlineCommentPosition none = none ∧
    ∃ q, convertInlineCommentPosition (some p) = some q ∧
      q.baseSHA = p.baseSha ∧ q.headSHA = p.headSha ∧ q.startSHA = p.startSha ∧
      q.newPath = p.newPath ∧ q.oldPath = p.oldPath ∧
      q.positionType = p.positionType ∧
      q.newLine = p.newLine ∧ q.oldLine = p.oldLine ∧
      q.width = p.width ∧ q.height = p.height ∧ q.x = p.x ∧ q.y = p.y ∧
      (p.lineRange = none → q.lineRange = none) ∧
      (∀ r, p.lineRange = some r → ∃ r', q.lineRange = some r' ∧
        (r.start = none → r'.start = none) ∧
        (∀ s, r.start = some s → r'.start =
          some ⟨s.lineCode, s.type, s.oldLine, s.newLine⟩) ∧
        (r.endPoint = none → r'.endPoint = none) ∧
        (∀ e, r.endPoint = some e → r'.endPoint =
          some ⟨e.lineCode, e.type, e.oldLine, e.newLine⟩)) := by
  refine ⟨rfl, _, rfl, rfl, rfl, rfl, rfl, rfl, rfl, rfl, rfl, rfl, rfl, rfl, rfl,
    ?_, ?_⟩
  · intro h; simp [convertInlineLineRange, h]
  · intro r hr
    refine ⟨convertInlineLineRange (some r) |>.get (by simp [convertInlineLineRange]),
      ?_, ?_, ?_, ?_, ?_⟩ <;>
      simp [hr, convertInlineLineRange, convertInlineLinePosition]
    · intro h; simp [h, convertInlineLinePosition]
    · intro s hs; simp [hs, convertInlineLinePosition]
    · intro h; simp [h, convertInlineLinePosition]
    · intro e he; simp [he, convertInlineLinePosition]

/-- A fully populated position used to witness C8. -/
def fullPosition : InlineCommentPosition :=
  { baseSha := some "base", headSha := some "head", startSha := some "start"
    newPath := some "new.go", oldPath := some "old.go"
    positionType := some "text"
    newLine := some 20, oldLine := some 15
    lineRange := some
      { start := some { lineCode := some "lc1", type := some "new",
                        oldLine := some 5, newLine := some 15 }
        endPoint := some { lineCode := some "lc2", type := some "new",
                           oldLine := some 9, newLine := some 20 } }
    width := some 3, height := some 4, x := none, y := none
    commentType := "MULTI_LINE" }

/-- Witness for C8: the lossless translation evaluated at a fully
populated concrete position. -/
theorem convertInlineCommentPosition_lossless_witness :
    ∃ q, convertInlineCommentPosition (some fullPosition) = some q ∧
      q.baseSHA = some "base" ∧ q.newLine = some 20 ∧
      ∃ r', q.lineRange = some r' ∧
        r'.start = some ⟨some "lc1", some "new", some 5, some 15⟩ ∧
        r'.endPoint = some ⟨some "lc2", some "new", some 9, some 20⟩ := by
  obtain ⟨-, q, hq, hbase, -, -, -, -, -, hnew, -, -, -, -, -, -, hrange⟩ :=
    convertInlineCommentPosition_lossless fullPosition
  obtain ⟨r', hr', -, hstart, -, hend⟩ := hrange _ rfl
  exact ⟨q, hq, hbase, hnew, r', hr', hstart _ rfl, hend _ rfl⟩

/-! ## GitHub wire shape and translator

The snapshot keeps two revisions of the GitHub adapter.  The newer one
(`src/unnamed/part_012`) translates multi-line ranges (gated on
`pos.CommentType == "MULTI_LINE"`) and submits comments in a plain loop
counting failures; the older one
(`src/internal/vcs_provider/github_service.go`) ignores the range's end
point and submits through the batch helper `WithRetry`. -/

/-- `github.PullRequestComment` as populated by the translators. -/
structure PullRequestComment where
  body : Option String
  commitID : Option String
  path : Option String
  line : Option Int
  side : Option String
  startLine : Option Int
  startSide : Option String
deriving Repr, DecidableEq

namespace GitHubService

/-- The single-line arm of `convertApiComment` (both revisions): the
`switch` on `pos.NewLine` / `pos.OldLine`. -/
def singleFill (out : PullRequestComment) (pos : InlineCommentPosition) :
    PullRequestComment :=
  match pos.newLine with
  | some n => { out with line := some n, side := some "RIGHT" }
  | none =>
    match pos.oldLine with
    | some n => { out with line := some n, side := some "LEFT" }
    | none => out

/-- The multi-line arm of `convertApiComment` (`src/unnamed/part_012`):
`Line`/`Side` from the range's end point, `StartLine`/`StartSide` from
its start point, new line taking precedence on each. -/
def multiFill (out : PullRequestComment) (s e : LinePositionOptions) :
    PullRequestComment :=
  let out1 :=
    match e.newLine with
    | some n => { out with line := some n, side := some "RIGHT" }
    | none =>
      match e.oldLine with
      | some n => { out with line := some n, side := some "LEFT" }
      | none => out
  match s.newLine with
  | some n => { out1 with startLine := some n, startSide := some "RIGHT" }
  | none =>
    match s.oldLine with
    | some n => { out1 with startLine := some n, startSide := some "LEFT" }
    | none => out1

/-- `GitHubService.convertApiComment` from `src/unnamed/part_012`.  The Go
guard `pos.CommentType == "MULTI_LINE" && pos.LineRange != nil &&
pos.LineRange.Start != nil && pos.LineRange.End != nil` is rendered as the
nested matches below (same semantics, short-circuit order preserved up to
conjunct reordering of pure tests). -/
def convertApiComment (c : Option InlineComment) : Option PullRequestComment :=
  match c with
  | none => none
  | some cm =>
    match cm.position with
    | none => none
    | some pos =>
      let out0 : PullRequestComment :=
        { body := cm.body, commitID := cm.commitID
          path := match pos.newPath with
                  | some p => some p
                  | none => pos.oldPath
          line := none, side := none, startLine := none, startSide := none }
      some <|
        match pos.lineRange with
        | some lr =>
          match lr.start, lr.endPoint with
          | some s, some e =>
            if pos.commentType = "MULTI_LINE" then multiFill out0 s e
            else singleFill out0 pos
          | _, _ => singleFill out0 pos
        | none => singleFill out0 pos

/-- The comment loop inside `SendInlineComments` (`src/unnamed/part_012`):
translate each comment, skip `nil` translations, otherwise issue the
platform call (modeled by the outcome oracle `call`, `true` = success) and
count failures.  Returns the failure count and the list of issued calls in
order. -/
def sendLoop (call : PullRequestComment → Bool) :
    List (Option InlineComment) → Nat × List PullRequestComment
  | [] => (0, [])
  | c :: rest =>
    match convertApiComment c with
    | none => sendLoop call rest
    | some gc =>
      let r := sendLoop call rest
      ((if call gc then 0 else 1) + r.1, gc :: r.2)

/-- `GitHubService.SendInlineComments` from `src/unnamed/part_012`:
`nil` on zero failures, otherwise the aggregate error
`"failed to send %d comments"`. -/
def SendInlineComments (call : PullRequestComment → Bool)
    (comments : List (Option InlineComment)) : Option String :=
  let failedCount := (sendLoop call comments).1
  if failedCount > 0 then
    some ("failed to send " ++ toString failedCount ++ " comments")
  else none

end GitHubService

/-- C4 (theorem): for a comment with a position and no line range, the
GitHub translator emits `line = new_line, side = "RIGHT"` whenever
`new_line` is set (new-line precedence, even when `old_line` is also
set), `line = old_line, side = "LEFT"` when only `old_line` is set, and
selects `new_path` when present, else `old_path`. -/
theorem github_convert_single_line (cm : InlineComment) (pos : InlineCommentPosition)
    (hpos : cm.position = some pos) (hlr : pos.lineRange = none) :
    ∃ out, GitHubService.convertApiComment (some cm) = some out ∧
      (∀ n, pos.newLine = some n → out.line = some n ∧ out.side = some "RIGHT") ∧
      (pos.newLine = none → ∀ n, pos.oldLine = some n →
        out.line = some n ∧ out.side = some "LEFT") ∧
      (∀ p, pos.newPath = some p → out.path = some p) ∧
      (pos.newPath = none → out.path = pos.oldPath) := by
  refine ⟨GitHubService.singleFill
      { body := cm.body, commitID := cm.commitID
        path := match pos.newPath with
                | some p => some p
                | none => pos.oldPath
        line := none, side := none, startLine := none, startSide := none } pos,
    by simp [GitHubService.convertApiComment, hpos, hlr], ?_, ?_, ?_, ?_⟩
  · intro n hn
    simp [GitHubService.singleFill, hn]
  · intro hn n ho
    simp [GitHubService.singleFill, hn, ho]
  · intro p hp
    cases hnl : pos.newLine <;> cases hol : pos.oldLine <;>
      simp [GitHubService.singleFill, hnl, hol, hp]
  · intro hp
    cases hnl : pos.newLine <;> cases hol : pos.oldLine <;>
      simp [GitHubService.singleFill, hnl, hol, hp]

/-- A single-line position carrying both a new and an old line, used to
witness C4. -/
def bothLinesPosition : InlineCommentPosition :=
  { baseSha := none, headSha := none, startSha := none
    newPath := some "new.go", oldPath := some "old.go"
    positionType := some "text", newLine := some 42, oldLine := some 7
    lineRange := none, width := none, height := none
    x := none, y := none, commentType := "" }

/-- Witness for C4: a comment carrying both `new_line = 42` and
`old_line = 7` (and both paths) is anchored to the new side at line 42,
with path `new.go`. -/
theorem github_convert_single_line_witness :
    ∃ out, GitHubService.convertApiComment (some
      { body := some "b", commitID := none, createdAt := none
        position := some bothLinesPosition }) = some out ∧
      out.line = some 42 ∧ out.side = some "RIGHT" ∧ out.path = some "new.go" := by
  obtain ⟨out, hc, hnew, -, hpath, -⟩ := github_convert_single_line
    { body := some "b", commitID := none, createdAt := none
      position := some bothLinesPosition } bothLinesPosition rfl rfl
  obtain ⟨hl, hs⟩ := hnew 42 rfl
  exact ⟨out, hc, hl, hs, hpath _ rfl⟩

/-- A position whose only anchoring data is a 15–20 new-side range, with
`comment_type` left empty. -/
def rangeOnlyPosition : InlineCommentPosition :=
  { baseSha := none, headSha := none, startSha := none
    newPath := some "file.go", oldPath := none
    positionType := some "text", newLine := none, oldLine := none
    lineRange := some
      { start := some { lineCode := none, type := none, oldLine := none, newLine := some 15 }
        endPoint := some { lineCode := none, type := none, oldLine := none, newLine := some 20 } }
    width := none, height := none, x := none, y := none
    commentType := "" }

/-- Counterexample to C2 as stated: a comment whose position carries a
line range with both start and end present (`start.new_line = 15`,
`end.new_line = 20`) but whose `comment_type` is not `"MULTI_LINE"` is
translated with *no* line fields at all — not `start_line = 15`,
`start_side = RIGHT`, `line = 20`, `side = RIGHT` as the claim requires. -/
theorem github_convert_range_counterexample :
    (GitHubService.convertApiComment (some
      { body := some "range comment", commitID := none, createdAt := none
        position := some rangeOnlyPosition })).map
        (fun o => (o.line, o.side, o.startLine, o.startSide)) =
      some (none, none, none, none) := by
  rfl

/-- C2 (amended): for a comment whose position has `comment_type =
"MULTI_LINE"` and a line range with both start and end present, the
GitHub translator maps the range's end point to `line`/`side` and its
start point to `start_line`/`start_side`, each by the new-precedence
rule. -/
theorem github_convert_multiline (cm : InlineComment) (pos : InlineCommentPosition)
    (lr : LineRangeOptions) (s e : LinePositionOptions)
    (hpos : cm.position = some pos) (hct : pos.commentType = "MULTI_LINE")
    (hlr : pos.lineRange = some lr) (hs : lr.start = some s)
    (he : lr.endPoint = some e) :
    ∃ out, GitHubService.convertApiComment (some cm) = some out ∧
      (∀ n, e.newLine = some n → out.line = some n ∧ out.side = some "RIGHT") ∧
      (e.newLine = none → ∀ n, e.oldLine = some n →
        out.line = some n ∧ out.side = some "LEFT") ∧
      (∀ n, s.newLine = some n → out.startLine = some n ∧ out.startSide = some "RIGHT") ∧
      (s.newLine = none → ∀ n, s.oldLine = some n →
        out.startLine = some n ∧ out.startSide = some "LEFT") := by
  refine ⟨GitHubService.multiFill
      { body := cm.body, commitID := cm.commitID
        path := match pos.newPath with
                | some p => some p
                | none => pos.oldPath
        line := none, side := none, startLine := none, startSide := none } s e,
    by simp [GitHubService.convertApiComment, hpos, hlr, hs, he, hct], ?_, ?_, ?_, ?_⟩
  · intro n hn
    cases hsn : s.newLine <;> cases hso : s.oldLine <;>
      simp [GitHubService.multiFill, hn, hsn, hso]
  · intro hn n ho
    cases hsn : s.newLine <;> cases hso : s.oldLine <;>
      simp [GitHubService.multiFill, hn, ho, hsn, hso]
  · intro n hn
    simp [GitHubService.multiFill, hn]
  · intro hn n ho
    simp [GitHubService.multiFill, hn, ho]

/-- Witness for C2 (amended): the spec's example range
(`start.new_line = 15`, `end.new_line = 20`) with `comment_type =
"MULTI_LINE"` translates to `start_line = 15`, `start_side = RIGHT`,
`line = 20`, `side = RIGHT`. -/
theorem github_convert_multiline_witness :
    ∃ out, GitHubService.convertApiComment (some
      { body := some "range comment", commitID := none, createdAt := none
        position := some { rangeOnlyPosition with commentType := "MULTI_LINE" } }) =
        some out ∧
      out.startLine = some 15 ∧ out.startSide = some "RIGHT" ∧
      out.line = some 20 ∧ out.side = some "RIGHT" := by
  obtain ⟨out, hc, hend, -, hstart, -⟩ :=
    github_convert_multiline
      { body := some "range comment", commitID := none, createdAt := none
        position := some { rangeOnlyPosition with commentType := "MULTI_LINE" } }
      { rangeOnlyPosition with commentType := "MULTI_LINE" }
      { start := some { lineCode := none, type := none, oldLine := none, newLine := some 15 }
        endPoint := some { lineCode := none, type := none, oldLine := none, newLine := some 20 } }
      { lineCode := none, type := none, oldLine := none, newLine := some 15 }
      { lineCode := none, type := none, oldLine := none, newLine := some 20 }
      rfl rfl rfl rfl rfl
  obtain ⟨hl, hsd⟩ := hend 20 rfl
  obtain ⟨hsl, hss⟩ := hstart 15 rfl
  exact ⟨out, hc, hsl, hss, hl, hsd⟩

/-- Counterexample to C3 as stated: on GitLab a (non-nil) comment whose
`Position` is `nil` does *not* translate to `nil` — `convertApiComment`
returns a non-nil discussion option carrying a `nil` position, so the
comment is submitted as a general discussion rather than skipped. -/
theorem gitlab_convert_nil_position_counterexample :
    convertApiComment (some
      { body := some "Simple comment", commitID := none, createdAt := none
        position := none }) =
      some { body := some "Simple comment", createdAt := none, position := none } := by
  rfl

/-- C3 (amended): a comment with no position translates to `nil` on
GitHub and is skipped by the GitHub submission loop without a platform
call and without touching the failure count, while on GitLab it
translates to a non-nil discussion option whose position is `nil` (and
is therefore submitted, not skipped). -/
theorem nil_position_comment_handling (c : InlineComment) (h : c.position = none) :
    GitHubService.convertApiComment (some c) = none ∧
    (∀ call rest, GitHubService.sendLoop call (some c :: rest) =
      GitHubService.sendLoop call rest) ∧
    convertApiComment (some c) =
      some { body := c.body, createdAt := c.createdAt, position := none } := by
  have hgh : GitHubService.convertApiComment (some c) = none := by
    simp [GitHubService.convertApiComment, h]
  refine ⟨hgh, fun call rest => ?_, ?_⟩
  · simp [GitHubService.sendLoop, hgh]
  · simp [convertApiComment, convertInlineCommentPosition, h]

/-- Witness for C3 (amended): a concrete position-less comment is skipped
by GitHub (translator yields `none`, the loop over it alone issues no call
and counts no failure) and is kept by GitLab with a `nil` position. -/
theorem nil_position_comment_handling_witness :
    GitHubService.convertApiComment (some
      { body := some "general remark", commitID := none, createdAt := none
        position := none }) = none ∧
    GitHubService.sendLoop (fun _ => false)
      [some { body := some "general remark", commitID := none, createdAt := none
              position := none }] = (0, []) ∧
    convertApiComment (some
      { body := some "general remark", commitID := none, createdAt := none
        position := none }) =
      some { body := some "general remark", createdAt := none, position := none } := by
  obtain ⟨h1, h2, h3⟩ := nil_position_comment_handling
    { body := some "general remark", commitID := none, createdAt := none
      position := none } rfl
  exact ⟨h1, by rw [h2 (fun _ => false) []]; rfl, h3⟩

/-! ## The batch-retry helper `WithRetry` (`util.go`)

```go
func WithRetry[T any](items []T, maxRetries int, fn func(T) error) []T {
    pending := items
    for attempt := 0; attempt <= maxRetries && len(pending) > 0; attempt++ {
        var failed []T
        for _, item := range pending {
            if err := fn(item); err != nil { failed = append(failed, item) }
        }
        pending = failed
    }
    return pending
}
```

The Go callback is effectful, so its outcome may differ between rounds; it
is modeled as a pure function of the attempt (round) index and the item.
The loop condition `attempt <= maxRetries` is encoded structurally by the
fuel `maxRetries + 1 - attempt`, so the recursion computes by reduction.
Alongside the Go return value, the model returns the invocation trace:
the list of `(attempt, item)` pairs at which `fn` was called, in call
order. -/

/-- One run of the `WithRetry` loop from attempt `attempt` with
`fuel = maxRetries + 1 - attempt` rounds left.  Returns the final
`pending` list and the invocation trace. -/
def withRetryGo (fn : Nat → α → Option E) :
    Nat → Nat → List α → List α × List (Nat × α)
  | 0, _, pending => (pending, [])
  | _ + 1, _, [] => ([], [])
  | fuel + 1, attempt, p :: ps =>
    let failed := (p :: ps).filter fun it => (fn attempt it).isSome
    let rest := withRetryGo fn fuel (attempt + 1) failed
    (rest.1, (p :: ps).map (fun it => (attempt, it)) ++ rest.2)

/-- `WithRetry` from `util.go`: the list of items still failing after the
initial attempt and up to `maxRetries` retry rounds. -/
def WithRetry (items : List α) (maxRetries : Nat) (fn : Nat → α → Option E) : List α :=
  (withRetryGo fn (maxRetries + 1) 0 items).1

/-- The invocation trace of `WithRetry`: every `(attempt, item)` at which
the callback was invoked, in call order. -/
def WithRetryTrace (items : List α) (maxRetries : Nat) (fn : Nat → α → Option E) :
    List (Nat × α) :=
  (withRetryGo fn (maxRetries + 1) 0 items).2

theorem withRetryGo_fst (fn : Nat → α → Option E) :
    ∀ fuel attempt pending, (withRetryGo fn fuel attempt pending).1 =
      pending.filter fun it => (List.range' attempt fuel).all fun r => (fn r it).isSome := by
  intro fuel
  induction fuel with
  | zero => intro a pending; simp [withRetryGo]
  | succ fuel ih =>
    intro a pending
    cases pending with
    | nil => simp [withRetryGo]
    | cons p ps =>
      rw [withRetryGo]
      simp only [ih (a + 1)]
      rw [List.filter_filter, List.range'_succ]
      simp only [List.all_cons]
      congr 1
      funext it
      rw [Bool.and_comm]

theorem withRetryGo_trace_mem (fn : Nat → α → Option E) :
    ∀ fuel attempt pending r x, (r, x) ∈ (withRetryGo fn fuel attempt pending).2 →
      attempt ≤ r ∧ r < attempt + fuel ∧ x ∈ pending := by
  intro fuel
  induction fuel with
  | zero => intro a pending r x h; simp [withRetryGo] at h
  | succ fuel ih =>
    intro a pending r x h
    cases pending with
    | nil => simp [withRetryGo] at h
    | cons p ps =>
      rw [withRetryGo] at h
      simp only [List.mem_append] at h
      rcases h with h | h
      · obtain ⟨it, hit, heq⟩ := List.mem_map.mp h
        cases heq
        exact ⟨Nat.le_refl _, by omega, hit⟩
      · obtain ⟨h1, h2, h3⟩ := ih (a + 1) _ r x h
        exact ⟨by omega, by omega, List.mem_of_mem_filter h3⟩

theorem withRetryGo_no_reinvoke (fn : Nat → α → Option E) :
    ∀ fuel attempt pending r x, (r, x) ∈ (withRetryGo fn fuel attempt pending).2 →
      fn r x = none → ∀ r2, r < r2 → (r2, x) ∉ (withRetryGo fn fuel attempt pending).2 := by
  intro fuel
  induction fuel with
  | zero => intro a pending r x h; simp [withRetryGo] at h
  | succ fuel ih =>
    intro a pending r x h hnone r2 hlt h2
    cases pending with
    | nil => simp [withRetryGo] at h
    | cons p ps =>
      rw [withRetryGo] at h h2
      simp only [List.mem_append] at h h2
      rcases h with h | h
      · -- first invocation of x happened in this round, so r = attempt
        obtain ⟨it, hit, heq⟩ := List.mem_map.mp h
        cases heq
        rcases h2 with h2 | h2
        · obtain ⟨it2, hit2, heq2⟩ := List.mem_map.mp h2
          cases heq2
          omega
        · have hx := (withRetryGo_trace_mem fn fuel (a + 1) _ r2 x h2).2.2
          have : (fn a x).isSome := (List.mem_filter.mp hx).2
          simp [hnone] at this
      · -- first invocation happened in a later round
        have hge := (withRetryGo_trace_mem fn fuel (a + 1) _ r x h).1
        rcases h2 with h2 | h2
        · obtain ⟨it2, hit2, heq2⟩ := List.mem_map.mp h2
          cases heq2
          omega
        · exact ih (a + 1) _ r x h hnone r2 hlt h2

theorem withRetryGo_countP [DecidableEq α] (fn : Nat → α → Option E) (x : α) :
    ∀ fuel attempt pending, pending.Nodup →
      ((withRetryGo fn fuel attempt pending).2.countP fun p => decide (p.2 = x)) ≤ fuel := by
  intro fuel
  induction fuel with
  | zero => intro a pending _; simp [withRetryGo]
  | succ fuel ih =>
    intro a pending hnd
    cases pending with
    | nil => simp [withRetryGo]
    | cons p ps =>
      rw [withRetryGo]
      simp only [List.countP_append]
      have h1 : (List.countP (fun p => decide (p.2 = x))
          ((p :: ps).map fun it => (a, it))) ≤ 1 := by
        rw [List.countP_map]
        have hc : (List.countP ((fun q => decide (q.2 = x)) ∘ fun it => ((a, it) : Nat × α))
            (p :: ps)) = (p :: ps).count x := by
          rfl
        rw [hc]
        exact List.nodup_iff_count_le_one.mp hnd x
      have h2 := ih (a + 1) ((p :: ps).filter fun it => (fn a it).isSome) (hnd.filter _)
      omega

/-- C10: on an empty input `WithRetry` returns an empty list without
invoking the callback; the returned list is exactly the input items (in
input order) for which the callback failed on every one of the
`maxRetries + 1` rounds; on a duplicate-free input the callback is
invoked at most `maxRetries + 1` times per item; and once an invocation
on an item succeeds the callback is never invoked on that item again. -/
theorem withRetry_spec [DecidableEq α] (items : List α) (m : Nat)
    (fn : Nat → α → Option E) :
    (WithRetry ([] : List α) m fn = [] ∧ WithRetryTrace ([] : List α) m fn = []) ∧
    WithRetry items m fn =
      (items.filter fun it => (List.range (m + 1)).all fun r => (fn r it).isSome) ∧
    (items.Nodup → ∀ x : α,
      ((WithRetryTrace items m fn).countP fun p => decide (p.2 = x)) ≤ m + 1) ∧
    (∀ r x r2, (r, x) ∈ WithRetryTrace items m fn → fn r x = none → r < r2 →
      (r2, x) ∉ WithRetryTrace items m fn) := by
  refine ⟨⟨?_, ?_⟩, ?_, fun hnd x => ?_, fun r x r2 => ?_⟩
  · simp [WithRetry, withRetryGo]
  · simp [WithRetryTrace, withRetryGo]
  · rw [WithRetry, withRetryGo_fst, List.range_eq_range']
  · exact withRetryGo_countP fn x (m + 1) 0 items hnd
  · intro hmem hnone hlt
    exact withRetryGo_no_reinvoke fn (m + 1) 0 items r x hmem hnone r2 hlt

/-- A concrete retry callback for the C10 witness: item 2 always fails,
every other item succeeds immediately. -/
def exRetryFn : Nat → Nat → Option String :=
  fun _ i => if i = 2 then some "boom" else none

/-- Witness for C10: with items `[1, 2]` and one retry, only item 2 is
returned as failed, item 2 was invoked at most twice, and item 1 —
which succeeded in round 0 — is never invoked in round 1. -/
theorem withRetry_spec_witness :
    WithRetry [1, 2] 1 exRetryFn = [2] ∧
    ((WithRetryTrace [1, 2] 1 exRetryFn).countP fun p => decide (p.2 = 2)) ≤ 2 ∧
    (1, 1) ∉ WithRetryTrace [1, 2] 1 exRetryFn := by
  obtain ⟨-, hfilter, hcount, hnore⟩ := withRetry_spec [1, 2] 1 exRetryFn
  refine ⟨by rw [hfilter]; rfl, hcount (by decide) 2, ?_⟩
  exact hnore 0 1 1 (by rw [show WithRetryTrace [1, 2] 1 exRetryFn =
    [(0, 1), (0, 2), (1, 2)] from rfl]; decide) rfl (by decide)

/-! ## Round structure of the `WithRetry` trace -/

/-- The items attempted in round `r`, in attempt order. -/
def roundAttempts (tr : List (Nat × α)) (r : Nat) : List α :=
  (tr.filter fun p => p.1 == r).map (·.2)

theorem roundAttempts_append (t1 t2 : List (Nat × α)) (r : Nat) :
    roundAttempts (t1 ++ t2) r = roundAttempts t1 r ++ roundAttempts t2 r := by
  simp [roundAttempts]

theorem roundAttempts_map_self (pending : List α) (a : Nat) :
    roundAttempts (pending.map fun it => (a, it)) a = pending := by
  induction pending with
  | nil => rfl
  | cons p ps ih => simpa [roundAttempts] using ih

theorem roundAttempts_map_ne (pending : List α) (a r : Nat) (h : a ≠ r) :
    roundAttempts (pending.map fun it => (a, it)) r = [] := by
  induction pending with
  | nil => rfl
  | cons p ps ih =>
    simp only [roundAttempts, List.map_cons, List.filter_cons] at ih ⊢
    simp [h, ih]

theorem roundAttempts_of_lb (tr : List (Nat × α)) (r : Nat)
    (h : ∀ p ∈ tr, r < p.1) : roundAttempts tr r = [] := by
  have : tr.filter (fun p => p.1 == r) = [] := by
    rw [List.filter_eq_nil_iff]
    intro p hp
    have := h p hp
    simp
    omega
  simp [roundAttempts, this]

theorem withRetryGo_round_head (fn : Nat → α → Option E) (fuel attempt : Nat)
    (pending : List α) (hf : 0 < fuel) :
    roundAttempts (withRetryGo fn fuel attempt pending).2 attempt = pending := by
  obtain ⟨f, rfl⟩ : ∃ f, fuel = f + 1 := ⟨fuel - 1, by omega⟩
  cases pending with
  | nil => simp [withRetryGo, roundAttempts]
  | cons p ps =>
    rw [withRetryGo]
    rw [roundAttempts_append, roundAttempts_map_self]
    rw [roundAttempts_of_lb _ _ (fun q hq =>
      (withRetryGo_trace_mem fn f (attempt + 1) _ q.1 q.2 hq).1), List.append_nil]

theorem withRetryGo_round_succ (fn : Nat → α → Option E) :
    ∀ fuel attempt pending r, attempt ≤ r → r + 1 < attempt + fuel →
      roundAttempts (withRetryGo fn fuel attempt pending).2 (r + 1) =
        (roundAttempts (withRetryGo fn fuel attempt pending).2 r).filter
          fun it => (fn r it).isSome := by
  intro fuel
  induction fuel with
  | zero => intro a pending r h1 h2; omega
  | succ fuel ih =>
    intro a pending r h1 h2
    cases pending with
    | nil => simp [withRetryGo, roundAttempts]
    | cons p ps =>
      rw [withRetryGo]
      simp only [roundAttempts_append]
      rcases Nat.eq_or_lt_of_le h1 with heq | hlt
      · subst heq
        rw [roundAttempts_map_ne _ _ _ (by omega), roundAttempts_map_self]
        rw [roundAttempts_of_lb
          (withRetryGo fn fuel (a + 1) ((p :: ps).filter fun it => (fn a it).isSome)).2 a
          (fun q hq => (withRetryGo_trace_mem fn fuel (a + 1) _ q.1 q.2 hq).1)]
        rw [withRetryGo_round_head fn fuel (a + 1) _ (by omega)]
        simp
      · rw [roundAttempts_map_ne _ _ _ (by omega),
          roundAttempts_map_ne _ _ _ (by omega)]
        simp only [List.nil_append]
        exact ih (a + 1) _ r (by omega) (by omega)

theorem pairwise_const {R : α → α → Prop} (h : ∀ x y, R x y) :
    ∀ l : List α, List.Pairwise R l
  | [] => List.Pairwise.nil
  | x :: xs => List.Pairwise.cons (fun y _ => h x y) (pairwise_const h xs)

/-- Along the `WithRetry` invocation trace the round index never
decreases: all of one pass completes before the next pass begins. -/
theorem withRetryGo_pairwise (fn : Nat → α → Option E) :
    ∀ fuel attempt pending,
      List.Pairwise (fun p q => p.1 ≤ q.1) (withRetryGo fn fuel attempt pending).2 := by
  intro fuel
  induction fuel with
  | zero => intro a pending; simp [withRetryGo]
  | succ fuel ih =>
    intro a pending
    cases pending with
    | nil => simp [withRetryGo]
    | cons p ps =>
      rw [withRetryGo, List.pairwise_append]
      refine ⟨?_, ih (a + 1) _, ?_⟩
      · exact List.pairwise_map.mpr (pairwise_const (fun _ _ => Nat.le_refl a) _)
      · intro p1 hp1 q hq
        obtain ⟨it, -, heq⟩ := List.mem_map.mp hp1
        cases heq
        have := (withRetryGo_trace_mem fn fuel (a + 1) _ q.1 q.2 hq).1
        omega

/-! ## Submission loops -/

namespace GitLabService

/-- The per-comment callback handed to `WithRetry` inside the GitLab
`SendInlineComments` (`gitlab_service.go`): translate, skip a `nil`
translation, otherwise issue the platform call (outcome oracle `call`,
indexed by the attempt round; `true` = success). -/
def sendFn (call : Nat → CreateMergeRequestDiscussionOptions → Bool) (r : Nat)
    (c : Option InlineComment) : Option Unit :=
  match convertApiComment c with
  | none => none
  | some gc => if call r gc then none else some ()

/-- `GitLabService.SendInlineComments` from `gitlab_service.go`: run the
batch through `WithRetry` with a ceiling of 3 retries and report the
aggregate failure count. -/
def SendInlineComments (call : Nat → CreateMergeRequestDiscussionOptions → Bool)
    (comments : List (Option InlineComment)) : Option String :=
  let failed := WithRetry comments 3 (sendFn call)
  if 0 < failed.length then
    some ("failed to send " ++ toString failed.length ++ " comments after retries")
  else none

end GitLabService

namespace GitHubServiceLegacy

/-- `GitHubService.convertApiComment` from the older revision
(`src/internal/vcs_provider/github_service.go`): `line`/`side` always
come from the position's top-level `NewLine`/`OldLine`; a line range
contributes only `StartLine`/`StartSide` (from its start point). -/
def convertApiComment (c : Option InlineComment) : Option PullRequestComment :=
  match c with
  | none => none
  | some cm =>
    match cm.position with
    | none => none
    | some pos =>
      let out0 : PullRequestComment :=
        { body := cm.body, commitID := cm.commitID
          path := match pos.newPath with
                  | some p => some p
                  | none => pos.oldPath
          line := none, side := none, startLine := none, startSide := none }
      let out1 := GitHubService.singleFill out0 pos
      some <|
        match pos.lineRange with
        | some lr =>
          match lr.start with
          | some s =>
            match s.newLine with
            | some n => { out1 with startLine := some n, startSide := some "RIGHT" }
            | none =>
              match s.oldLine with
              | some n => { out1 with startLine := some n, startSide := some "LEFT" }
              | none => out1
          | none => out1
        | none => out1

/-- The per-comment callback handed to `WithRetry` inside the older
`GitHubService.SendInlineComments`. -/
def sendFn (call : Nat → PullRequestComment → Bool) (r : Nat)
    (c : Option InlineComment) : Option Unit :=
  match convertApiComment c with
  | none => none
  | some gc => if call r gc then none else some ()

/-- The older `GitHubService.SendInlineComments`
(`src/internal/vcs_provider/github_service.go`): `WithRetry` with a
ceiling of 3 retries and an aggregate error reporting the failure
count. -/
def SendInlineComments (call : Nat → PullRequestComment → Bool)
    (comments : List (Option InlineComment)) : Option String :=
  let failed := WithRetry comments 3 (sendFn call)
  if 0 < failed.length then
    some ("failed to send " ++ toString failed.length ++ " comments after retries")
  else none

/-- The invocation trace of the older `SendInlineComments`. -/
def sendTrace (call : Nat → PullRequestComment → Bool)
    (comments : List (Option InlineComment)) : List (Nat × Option InlineComment) :=
  WithRetryTrace comments 3 (sendFn call)

end GitHubServiceLegacy

theorem sendLoop_trace (call : PullRequestComment → Bool) :
    ∀ comments, (GitHubService.sendLoop call comments).2 =
      comments.filterMap GitHubService.convertApiComment := by
  intro comments
  induction comments with
  | nil => rfl
  | cons c rest ih =>
    simp only [GitHubService.sendLoop, List.filterMap_cons]
    cases GitHubService.convertApiComment c <;> simp [ih]

theorem sendLoop_count (call : PullRequestComment → Bool) :
    ∀ comments, (GitHubService.sendLoop call comments).1 =
      ((comments.filterMap GitHubService.convertApiComment).filter
        fun gc => !(call gc)).length := by
  intro comments
  induction comments with
  | nil => rfl
  | cons c rest ih =>
    simp only [GitHubService.sendLoop, List.filterMap_cons]
    cases GitHubService.convertApiComment c with
    | none => simpa using ih
    | some gc =>
      cases hc : call gc with
      | false => simp [hc, ih]; omega
      | true => simp [hc, ih]

/-- C5: the newer GitHub submission loop attempts every translatable
comment in input order — the issued calls are exactly the non-nil
translations, independent of failures — returns `nil` exactly when zero
comments failed (in particular for an empty batch), and on `k ≥ 1`
failures returns the aggregate message naming `k`; the GitLab
(`WithRetry`-based) loop likewise returns `nil` exactly when no comment
failed in all four rounds — the failed list being the input order
preserving sublist of comments failing every round — and otherwise
reports the failed count. -/
theorem sendInlineComments_aggregate
    (call : PullRequestComment → Bool) (comments : List (Option InlineComment))
    (callG : Nat → CreateMergeRequestDiscussionOptions → Bool)
    (commentsG : List (Option InlineComment)) :
    (GitHubService.sendLoop call comments).2 =
      comments.filterMap GitHubService.convertApiComment ∧
    (GitHubService.sendLoop call comments).1 =
      ((comments.filterMap GitHubService.convertApiComment).filter
        fun gc => !(call gc)).length ∧
    (GitHubService.SendInlineComments call comments = none ↔
      (GitHubService.sendLoop call comments).1 = 0) ∧
    (∀ k, (GitHubService.sendLoop call comments).1 = k → 1 ≤ k →
      GitHubService.SendInlineComments call comments =
        some ("failed to send " ++ toString k ++ " comments")) ∧
    GitHubService.SendInlineComments call [] = none ∧
    WithRetry commentsG 3 (GitLabService.sendFn callG) =
      (commentsG.filter fun c =>
        (List.range 4).all fun r => (GitLabService.sendFn callG r c).isSome) ∧
    (GitLabService.SendInlineComments callG commentsG = none ↔
      WithRetry commentsG 3 (GitLabService.sendFn callG) = []) ∧
    (∀ k, (WithRetry commentsG 3 (GitLabService.sendFn callG)).length = k → 1 ≤ k →
      GitLabService.SendInlineComments callG commentsG =
        some ("failed to send " ++ toString k ++ " comments after retries")) := by
  refine ⟨sendLoop_trace call comments, sendLoop_count call comments, ?_, ?_, rfl,
    ?_, ?_, ?_⟩
  · simp only [GitHubService.SendInlineComments]
    constructor
    · intro h
      by_contra hne
      simp [Nat.pos_of_ne_zero hne] at h
    · intro h; simp [h]
  · intro k hk h1
    simp [GitHubService.SendInlineComments, hk, h1, Nat.lt_of_lt_of_le Nat.zero_lt_one h1]
  · rw [WithRetry, withRetryGo_fst, List.range_eq_range']
  · simp only [GitLabService.SendInlineComments]
    constructor
    · intro h
      by_contra hne
      have : 0 < (WithRetry commentsG 3 (GitLabService.sendFn callG)).length :=
        List.length_pos.mpr hne
      simp [this] at h
    · intro h; simp [h]
  · intro k hk h1
    simp [GitLabService.SendInlineComments, hk, Nat.lt_of_lt_of_le Nat.zero_lt_one h1]

/-- Comments used by the C5 witness: one without a position, one whose
call fails, one whose call succeeds. -/
def skipComment : InlineComment :=
  { body := some "skip", commitID := none, createdAt := none, position := none }

def lineOnePosition : InlineCommentPosition :=
  { baseSha := none, headSha := none, startSha := none
    newPath := some "f.go", oldPath := none, positionType := some "text"
    newLine := some 1, oldLine := none, lineRange := none
    width := none, height := none, x := none, y := none, commentType := "" }

def lineTwoPosition : InlineCommentPosition :=
  { lineOnePosition with newLine := some 2 }

def lineOneComment : InlineComment :=
  { body := some "a", commitID := none, createdAt := none
    position := some lineOnePosition }

def lineTwoComment : InlineComment :=
  { body := some "b", commitID := none, createdAt := none
    position := some lineTwoPosition }

/-- Witness for C5: of three comments (a position-less one, one the
platform rejects, one it accepts) the GitHub loop attempts the two
translatable ones and reports exactly one failure; a GitLab batch whose
single position-less comment is rejected on every attempt reports one
failure after retries. -/
theorem sendInlineComments_aggregate_witness :
    GitHubService.SendInlineComments (fun gc => gc.line == some 2)
      [some skipComment, some lineOneComment, some lineTwoComment] =
      some "failed to send 1 comments" ∧
    GitLabService.SendInlineComments (fun _ _ => false) [some skipComment] =
      some "failed to send 1 comments after retries" := by
  obtain ⟨-, -, -, hmsg, -, -, -, -⟩ := sendInlineComments_aggregate
    (fun gc => gc.line == some 2)
    [some skipComment, some lineOneComment, some lineTwoComment]
    (fun _ _ => false) [some skipComment]
  obtain ⟨-, -, -, -, -, -, -, hmsgG⟩ := sendInlineComments_aggregate
    (fun gc => gc.line == some 2)
    [some skipComment, some lineOneComment, some lineTwoComment]
    (fun _ _ => false) [some skipComment]
  exact ⟨hmsg 1 rfl (by decide), hmsgG 1 rfl (by decide)⟩

/-- The platform-call oracle for the C6 counterexample: the call for the
line-1 comment fails in round 0 and every call succeeds otherwise. -/
def exCall : Nat → PullRequestComment → Bool :=
  fun r gc => !(r == 0 && gc.line == some 1)

/-- Counterexample to C6 as stated: submitting the two comments
`lineOneComment, lineTwoComment` through the older (`WithRetry`-based)
GitHub submission, where the first comment's call fails once, produces
the invocation trace
`[(0, lineOneComment), (0, lineTwoComment), (1, lineOneComment)]`: the
single attempt of the second comment occurs strictly between the first
comment's initial attempt and its retry, so the retries of a comment do
not complete before the next comment is attempted. -/
theorem send_interleaving_counterexample :
    GitHubServiceLegacy.sendTrace exCall [some lineOneComment, some lineTwoComment] =
      [(0, some lineOneComment), (0, some lineTwoComment), (1, some lineOneComment)] ∧
    lineOneComment ≠ lineTwoComment := by
  refine ⟨rfl, ?_⟩
  intro h
  simpa [lineOneComment, lineTwoComment] using congrArg InlineComment.body h

/-- C6 (amended): submission issues all first attempts in the input
order; along the whole trace the retry-round index never decreases (each
pass over the still-failing comments completes before the next pass
starts); and the comments attempted in pass `r + 1` are exactly the
comments of pass `r` whose call failed, in preserved order.  Retries are
thus batched into later passes rather than completing per comment. -/
theorem send_order_amended (call : Nat → PullRequestComment → Bool)
    (comments : List (Option InlineComment)) :
    roundAttempts (GitHubServiceLegacy.sendTrace call comments) 0 = comments ∧
    List.Pairwise (fun p q => p.1 ≤ q.1)
      (GitHubServiceLegacy.sendTrace call comments) ∧
    (∀ r, r + 1 < 4 →
      roundAttempts (GitHubServiceLegacy.sendTrace call comments) (r + 1) =
        (roundAttempts (GitHubServiceLegacy.sendTrace call comments) r).filter
          fun c => (GitHubServiceLegacy.sendFn call r c).isSome) := by
  refine ⟨?_, ?_, ?_⟩
  · exact withRetryGo_round_head _ 4 0 comments (by omega)
  · exact withRetryGo_pairwise _ 4 0 comments
  · intro r hr
    exact withRetryGo_round_succ _ 4 0 comments r (Nat.zero_le r) (by omega)

/-- Witness for C6 (amended): on the counterexample batch, pass 0
attempts both comments in order and pass 1 attempts exactly the pass-0
failures. -/
theorem send_order_amended_witness :
    roundAttempts (GitHubServiceLegacy.sendTrace exCall
      [some lineOneComment, some lineTwoComment]) 0 =
      [some lineOneComment, some lineTwoComment] ∧
    roundAttempts (GitHubServiceLegacy.sendTrace exCall
      [some lineOneComment, some lineTwoComment]) 1 =
      (roundAttempts (GitHubServiceLegacy.sendTrace exCall
        [some lineOneComment, some lineTwoComment]) 0).filter
        fun c => (GitHubServiceLegacy.sendFn exCall 0 c).isSome := by
  obtain ⟨h0, -, hsucc⟩ := send_order_amended exCall
    [some lineOneComment, some lineTwoComment]
  exact ⟨h0, hsucc 0 (by omega)⟩

/-! ## Pull-request-info fetchers

The network fetches and URL parsing are modeled as inputs; the embedded
functions are the struct-literal mappings that build the returned
`PullRequestInfo` in `GetPullRequestInfo` of each adapter.  Fields the Go
literals omit take the Go zero value `""` / `0`.  The `Owner` field set
by the GitHub adapter (present in the newer `api.PullRequestInfo`
revision) is modeled in `GHOwner`-populated `owner`. -/

/-- `mr.DiffRefs` of the fetched GitLab merge request. -/
structure DiffRefs where
  baseSha : String
  headSha : String
  startSha : String
deriving Repr, DecidableEq

/-- The fields of the fetched GitLab merge request read by
`GitLabService.GetPullRequestInfo`. -/
structure MergeRequest where
  diffRefs : DiffRefs
  projectID : Int
  sourceBranch : String
  targetBranch : String
  iid : Int
deriving Repr, DecidableEq

/-- The fields of the fetched GitLab project read by
`GitLabService.GetPullRequestInfo`. -/
structure Project where
  name : String
  httpURLToRepo : String
  id : Int
  pathWithNamespace : String
deriving Repr, DecidableEq

/-- The fields of a GitHub repository read by
`GitHubService.GetPullRequestInfo`. -/
structure GHRepo where
  cloneURL : String
  name : String
  id : Int
  ownerLogin : String
deriving Repr, DecidableEq

/-- A GitHub pull-request branch (`pr.Head` / `pr.Base`). -/
structure GHBranch where
  sha : String
  ref : String
  repo : GHRepo
deriving Repr, DecidableEq

/-- The fields of the fetched GitHub pull request read by
`GitHubService.GetPullRequestInfo`. -/
structure GHPullRequest where
  head : GHBranch
  base : GHBranch
  number : Int
deriving Repr, DecidableEq

/-- The `owner` field set by the GitHub adapter; it belongs to the newer
`api.PullRequestInfo` revision used by the GitHub code in the snapshot. -/
structure PullRequestInfoOwner extends PullRequestInfo where
  owner : String
deriving Repr, DecidableEq

/-- The struct-literal mapping of `GitLabService.GetPullRequestInfo`
(`gitlab_service.go`): the fetched merge request and project are mapped
onto the generic record.  The `Owner` field is not set (zero value). -/
def GitLabService.GetPullRequestInfo (mr : MergeRequest) (project : Project) :
    PullRequestInfoOwner :=
  { headSha := mr.diffRefs.headSha
    baseSha := mr.diffRefs.baseSha
    startSha := mr.diffRefs.startSha
    projectName := project.name
    projectHttpUrl := project.httpURLToRepo
    projectId := project.id
    sourceBranch := mr.sourceBranch
    targetBranch := mr.targetBranch
    projectPath := project.pathWithNamespace
    pullRequestId := mr.iid
    owner := "" }

/-- The struct-literal mapping of `GitHubService.GetPullRequestInfo`
(identical in both revisions of `github_service.go`): only `HeadSha`,
`BaseSha`, `ProjectName`, `ProjectHttpUrl`, `ProjectId`, `SourceBranch`,
`PullRequestId` and `Owner` are set; `StartSha`, `TargetBranch` and
`ProjectPath` are omitted and take the zero value `""`. -/
def GitHubService.GetPullRequestInfo (pr : GHPullRequest) : PullRequestInfoOwner :=
  { headSha := pr.head.sha
    baseSha := pr.base.sha
    projectName := pr.base.repo.name
    projectHttpUrl := pr.head.repo.cloneURL
    projectId := pr.base.repo.id
    sourceBranch := pr.head.ref
    pullRequestId := pr.number
    owner := pr.base.repo.ownerLogin
    startSha := ""
    targetBranch := ""
    projectPath := "" }

/-- A concrete fetched GitHub pull request with distinct non-empty
SHAs. -/
def exPullRequest : GHPullRequest :=
  { head := { sha := "headsha", ref := "feature"
              repo := { cloneURL := "https://github.com/o/r.git", name := "r"
                        id := 7, ownerLogin := "o" } }
    base := { sha := "basesha", ref := "main"
              repo := { cloneURL := "https://github.com/o/r.git", name := "r"
                        id := 7, ownerLogin := "o" } }
    number := 42 }

/-- Counterexample to C7 as stated: `GitHubService.GetPullRequestInfo`
does not populate `start_sha` from the fetched pull request — on a pull
request whose base and head SHAs are non-empty the returned `start_sha`
is the empty string, equal to neither of them. -/
theorem github_getPullRequestInfo_counterexample :
    (GitHubService.GetPullRequestInfo exPullRequest).startSha = "" ∧
    (GitHubService.GetPullRequestInfo exPullRequest).startSha ≠
      exPullRequest.base.sha ∧
    (GitHubService.GetPullRequestInfo exPullRequest).startSha ≠
      exPullRequest.head.sha := by
  refine ⟨rfl, ?_, ?_⟩ <;> decide

/-- C7 (amended): `GetPullRequestInfo` populates all three generic commit
references from `DiffRefs` on GitLab; on GitHub it populates only
`base_sha` and `head_sha` (from the pull request's base and head) and
leaves `start_sha` empty. -/
theorem getPullRequestInfo_diff_refs (mr : MergeRequest) (project : Project)
    (pr : GHPullRequest) :
    (GitLabService.GetPullRequestInfo mr project).baseSha = mr.diffRefs.baseSha ∧
    (GitLabService.GetPullRequestInfo mr project).headSha = mr.diffRefs.headSha ∧
    (GitLabService.GetPullRequestInfo mr project).startSha = mr.diffRefs.startSha ∧
    (GitHubService.GetPullRequestInfo pr).baseSha = pr.base.sha ∧
    (GitHubService.GetPullRequestInfo pr).headSha = pr.head.sha ∧
    (GitHubService.GetPullRequestInfo pr).startSha = "" :=
  ⟨rfl, rfl, rfl, rfl, rfl, rfl⟩

/-! ## The pipeline driver `App.Run` (`app.go`, `src/unnamed/part_004`)

Each fallible collaborator (provider detection, service construction,
metadata fetch, temp-dir creation, clone, comment generation, comment
delivery) is modeled as an oracle outcome carried by `RunEnv`; `Run`
reproduces the control flow of the Go method over those outcomes,
together with the lines written to stdout and stderr.  The
signal-forwarding goroutine (which only wires cancellation into the
generation context) has no observable effect in this per-outcome model
and is not represented. -/

structure RunEnv where
  detectProvider : Except String String
  createVCSProvider : Except String Unit
  getPullRequestInfo : Except String PullRequestInfoOwner
  mkdirTemp : Except String String
  createVersionControlService : Except String Unit
  cloneRepo : Option String
  createAiAgentService : Except String Unit
  generateComments : Except String (List (Option InlineComment))
  sendInlineComments : Option String

/-- The observable outcome of `App.Run`: the returned error (`none` for a
`nil` return) and the lines written to stdout and stderr. -/
structure RunOutput where
  result : Option String
  stdout : List String
  stderr : List String
deriving Repr

/-- `App.Run` from `app.go` over the outcome oracles of its
collaborators. -/
def Run (mrUrl : String) (env : RunEnv) : RunOutput :=
  match env.detectProvider with
  | .error e =>
    { result := some ("failed to detect VCS provider type: " ++ e)
      stdout := [], stderr := [] }
  | .ok t =>
    if t = "unknown" then
      { result := some ("unsupported VCS provider for URL: " ++ mrUrl)
        stdout := [], stderr := [] }
    else
      let out1 := ["VCS provider type: " ++ t]
      match env.createVCSProvider with
      | .error e =>
        { result := some ("failed to create VCS provider service: " ++ e)
          stdout := out1, stderr := [] }
      | .ok _ =>
        match env.getPullRequestInfo with
        | .error e =>
          { result := some ("failed to get PR info: " ++ e)
            stdout := out1, stderr := [] }
        | .ok prInfo =>
          match env.mkdirTemp with
          | .error e =>
            { result := some ("failed to create temp directory: " ++ e)
              stdout := out1, stderr := [] }
          | .ok _ =>
            match env.createVersionControlService with
            | .error e =>
              { result := some ("failed to create version control service: " ++ e)
                stdout := out1, stderr := [] }
            | .ok _ =>
              match env.cloneRepo with
              | some e =>
                { result := some ("failed to clone repo: " ++ e)
                  stdout := out1, stderr := [] }
              | none =>
                let out2 := out1 ++ ["Successfully cloned repo: " ++ prInfo.projectName]
                match env.createAiAgentService with
                | .error e =>
                  { result := some ("failed to create agent service: " ++ e)
                    stdout := out2, stderr := [] }
                | .ok _ =>
                  let out3 := out2 ++ ["Starting PR analysis at " ++ prInfo.sourceBranch]
                  match env.generateComments with
                  | .error e =>
                    { result := some ("failed to generate inline comments: " ++ e)
                      stdout := out3, stderr := [] }
                  | .ok _ =>
                    let out4 := out3 ++ ["Pushing comments to VCS provider"]
                    let warn := match env.sendInlineComments with
                                | some e => ["Warning: " ++ e]
                                | none => []
                    { result := none
                      stdout := out4 ++ ["Finished PR analysis at " ++ prInfo.sourceBranch]
                      stderr := warn }

/-- C9: once provider detection, service construction, PR-info fetch,
temp-dir creation, clone and comment generation have succeeded, `App.Run`
returns `nil` whatever `SendInlineComments` returned; a delivery error is
only written to stderr as a warning. -/
theorem run_send_error_is_warning (mrUrl t d : String) (env : RunEnv)
    (prInfo : PullRequestInfoOwner) (cs : List (Option InlineComment))
    (h1 : env.detectProvider = .ok t) (h2 : t ≠ "unknown")
    (h3 : env.createVCSProvider = .ok ())
    (h4 : env.getPullRequestInfo = .ok prInfo)
    (h5 : env.mkdirTemp = .ok d)
    (h6 : env.createVersionControlService = .ok ())
    (h7 : env.cloneRepo = none)
    (h8 : env.createAiAgentService = .ok ())
    (h9 : env.generateComments = .ok cs) :
    (Run mrUrl env).result = none ∧
    (∀ e, env.sendInlineComments = some e →
      (Run mrUrl env).stderr = ["Warning: " ++ e]) ∧
    (env.sendInlineComments = none → (Run mrUrl env).stderr = []) := by
  simp only [Run, h1, h2, h3, h4, h5, h6, h7, h8, h9, if_neg h2]
  refine ⟨rfl, ?_, ?_⟩
  · intro e he; simp [he]
  · intro he; simp [he]

/-- A run environment in which every stage succeeds but comment delivery
reports an aggregate failure. -/
def exEnv : RunEnv :=
  { detectProvider := .ok "github"
    createVCSProvider := .ok ()
    getPullRequestInfo := .ok (GitHubService.GetPullRequestInfo exPullRequest)
    mkdirTemp := .ok "/tmp/r-1"
    createVersionControlService := .ok ()
    cloneRepo := none
    createAiAgentService := .ok ()
    generateComments := .ok []
    sendInlineComments := some "failed to send 1 comments" }

/-- Witness for C9: on a concrete run whose delivery fails, `Run` still
returns `nil` and writes the warning line to stderr. -/
theorem run_send_error_is_warning_witness :
    (Run "https://github.com/o/r/pull/42" exEnv).result = none ∧
    (Run "https://github.com/o/r/pull/42" exEnv).stderr =
      ["Warning: failed to send 1 comments"] := by
  obtain ⟨hres, hwarn, -⟩ := run_send_error_is_warning
    "https://github.com/o/r/pull/42" "github" "/tmp/r-1" exEnv
    (GitHubService.GetPullRequestInfo exPullRequest) []
    rfl (by decide) rfl rfl rfl rfl rfl rfl rfl
  exact ⟨hres, hwarn _ rfl⟩

end Gitex
